import Mathlib

/-!
Verification of the reqMAS coordination/resilience core against its
natural-language specification.

Shallow embedding conventions:
* `datetime.now()` is modelled by an explicit `now : Nat` argument (an abstract
  instant); durations are `Nat` seconds and the timeout comparison is done in `Int`
  exactly as `(now - last).total_seconds() >= recovery_timeout` is in the source.
* Python `float` confidences are modelled as exact rationals (`Rat`); the source
  arithmetic (weighted sums of literal decimal weights) is mirrored term by term.
* Python exceptions are modelled by `Option`/pair results: a raised exception is
  `none` together with the (unchanged) state of the object that raised.
* Python dicts used as maps are association lists (`List (String × _)`) with
  first-match lookup; Python dict assignment is replace-or-append.
-/

namespace Reqmas

/- ### src/resilience/circuit_breaker.py -/

/-- The three states of `CircuitState` (enum in the source). -/
inductive CircuitState where
  | CLOSED
  | OPEN
  | HALF_OPEN
deriving Repr, DecidableEq

/-- State of one `CircuitBreaker` instance (src/resilience/circuit_breaker.py).
`last_failure_time`/`last_state_change` are abstract instants (`Nat`). -/
structure CircuitBreaker where
  agent_id : String
  state : CircuitState
  failure_count : Nat
  failure_threshold : Nat
  recovery_timeout : Nat
  half_open_requests : Nat
  half_open_successes : Nat
  last_failure_time : Option Nat
  last_state_change : Nat
deriving Repr, DecidableEq

/-- `CircuitBreaker.__init__` (defaults in the source: threshold 5, timeout 60,
half-open quota 3; here all three are explicit). -/
def CircuitBreaker.init (agent_id : String)
    (failure_threshold recovery_timeout half_open_requests : Nat) (now : Nat) :
    CircuitBreaker where
  agent_id := agent_id
  state := .CLOSED
  failure_count := 0
  failure_threshold := failure_threshold
  recovery_timeout := recovery_timeout
  half_open_requests := half_open_requests
  half_open_successes := 0
  last_failure_time := none
  last_state_change := now

/-- `CircuitBreaker._should_attempt_reset`. -/
def CircuitBreaker.should_attempt_reset (cb : CircuitBreaker) (now : Nat) : Bool :=
  match cb.last_failure_time with
  | none => true
  | some t => decide ((cb.recovery_timeout : Int) ≤ (now : Int) - (t : Int))

/-- `CircuitBreaker._on_success`. -/
def CircuitBreaker.on_success (cb : CircuitBreaker) (now : Nat) : CircuitBreaker :=
  match cb.state with
  | .HALF_OPEN =>
    let s := cb.half_open_successes + 1
    if cb.half_open_requests ≤ s then
      { cb with half_open_successes := s, state := .CLOSED, failure_count := 0,
                last_state_change := now }
    else
      { cb with half_open_successes := s }
  | .CLOSED => { cb with failure_count := 0 }
  | .OPEN => cb

/-- `CircuitBreaker._on_failure`. -/
def CircuitBreaker.on_failure (cb : CircuitBreaker) (now : Nat) : CircuitBreaker :=
  let cb := { cb with failure_count := cb.failure_count + 1, last_failure_time := some now }
  match cb.state with
  | .HALF_OPEN => { cb with state := .OPEN, last_state_change := now }
  | _ =>
    if cb.failure_threshold ≤ cb.failure_count then
      { cb with state := .OPEN, last_state_change := now }
    else cb

/-- `CircuitBreaker.call`.  The wrapped function is replaced by its outcome:
`some v` if it would return `v`, `none` if it would raise.  The result pair is
the breaker after the call and `some v` on success, `none` when `call` raises
(either the fail-fast rejection while OPEN or the propagated failure). -/
def CircuitBreaker.call (cb : CircuitBreaker) (now : Nat) (outcome : Option α) :
    CircuitBreaker × Option α :=
  match cb.state with
  | .OPEN =>
    if cb.should_attempt_reset now then
      let cb1 := { cb with state := .HALF_OPEN, half_open_successes := 0,
                           last_state_change := now }
      match outcome with
      | some v => (cb1.on_success now, some v)
      | none => (cb1.on_failure now, none)
    else
      (cb, none)
  | _ =>
    match outcome with
    | some v => (cb.on_success now, some v)
    | none => (cb.on_failure now, none)

/-- `CircuitBreaker.reset`. -/
def CircuitBreaker.reset (cb : CircuitBreaker) (now : Nat) : CircuitBreaker :=
  { cb with state := .CLOSED, failure_count := 0, half_open_successes := 0,
            last_state_change := now, last_failure_time := none }

/-- `CircuitBreaker.force_open` (note: it does not touch `last_failure_time`). -/
def CircuitBreaker.force_open (cb : CircuitBreaker) (now : Nat) : CircuitBreaker :=
  { cb with state := .OPEN, last_state_change := now }

/-- `CircuitBreaker.is_available`. -/
def CircuitBreaker.is_available (cb : CircuitBreaker) (now : Nat) : Bool :=
  match cb.state with
  | .OPEN => cb.should_attempt_reset now
  | _ => true

/-- A sequence of calls whose wrapped function succeeds, one per listed instant. -/
def CircuitBreaker.successCalls (cb : CircuitBreaker) (times : List Nat) : CircuitBreaker :=
  times.foldl (fun c t => (c.call t (some ())).1) cb

/- ### src/core/vector_clock.py -/

namespace VectorClock

/-- A Python `Dict[str, int]` clock, as an association list (dicts never hold
duplicate keys; theorems assume key-nodup where it matters). -/
abbrev Clock := List (String × Nat)

/-- `other_clock.get(agent_id, 0)`. -/
def getD (m : Clock) (k : String) : Nat := (m.lookup k).getD 0

/-- Python `==` on two dicts: same key set, same values. -/
def dictEq (a b : Clock) : Bool :=
  a.all (fun kv => b.lookup kv.1 == some kv.2) &&
  b.all (fun kv => a.lookup kv.1 == some kv.2)

/-- `VectorClock.compare` (src/core/vector_clock.py, lines 50-81), with
`self.clock` as the first argument. -/
def compare (self other : Clock) : String :=
  if dictEq self other then "equal"
  else
    let less_or_equal := self.all (fun kv => decide (kv.2 ≤ getD other kv.1))
    let greater_or_equal := other.all (fun kv => decide (kv.2 ≤ getD self kv.1))
    if less_or_equal && !greater_or_equal then "before"
    else if greater_or_equal && !less_or_equal then "after"
    else "concurrent"

/-- `VectorClock._is_concurrent` (lines 113-129): mutual strict excess over the
union of keys (iterating the concatenation instead of the de-duplicated union is
observationally identical for `any`). -/
def is_concurrent_pair (clock1 clock2 : Clock) : Bool :=
  let all_keys := clock1.map Prod.fst ++ clock2.map Prod.fst
  (all_keys.any fun k => decide (getD clock2 k < getD clock1 k)) &&
  (all_keys.any fun k => decide (getD clock1 k < getD clock2 k))

/-- Spec-side predicate (claim C3 wording): the maps are identical. -/
def identicalMaps (a b : Clock) : Prop := ∀ k, a.lookup k = b.lookup k

/-- Spec-side predicate (claim C3 wording): componentwise ≤ with missing
components reading as 0. -/
def lePointwise (a b : Clock) : Prop := ∀ k, getD a k ≤ getD b k

end VectorClock

/- ### src/core/blackboard.py -/

/-- One entry of a knowledge space:
`{"value": value, "agent": agent_id, "timestamp": datetime.now().isoformat()}`. -/
structure KnowledgeEntry (α : Type) where
  value : α
  agent : String
  timestamp : Nat
deriving Repr, DecidableEq

/-- Python dict assignment `d[k] = v` on an association list: replace the
binding if the key is present, else append (dicts keep insertion order). -/
def dictInsert (m : List (String × β)) (k : String) (v : β) : List (String × β) :=
  if m.any (fun kv => kv.1 == k) then
    m.map (fun kv => if kv.1 == k then (k, v) else kv)
  else
    m ++ [(k, v)]

/-- `ReflectiveBlackboard` state.  `self.knowledge_spaces` is a dict created in
`__init__` with exactly the keys `raw`, `processed`, `validated`, `consolidated`;
no code path ever adds or removes a key, so it is embedded as a fixed record.
`conflicts` is the conflict registry (never populated in scope; kept abstract as
a list of strings).  The `agent_spaces`, `vector_clocks` and `lock` fields are
not observable through the claims (the asyncio lock serializes the async
methods, which here are plain state-passing functions). -/
structure ReflectiveBlackboard (α : Type) where
  raw : List (String × KnowledgeEntry α)
  processed : List (String × KnowledgeEntry α)
  validated : List (String × KnowledgeEntry α)
  consolidated : List (String × KnowledgeEntry α)
  conflicts : List String
deriving Repr, DecidableEq

/-- `ReflectiveBlackboard.__init__`: all four spaces empty, no conflicts. -/
def ReflectiveBlackboard.init : ReflectiveBlackboard α :=
  { raw := [], processed := [], validated := [], consolidated := [], conflicts := [] }

/-- The four keys of `self.knowledge_spaces`. -/
def recognizedSpaces : List String := ["raw", "processed", "validated", "consolidated"]

/-- `self.knowledge_spaces[space]`, or `none` when `space` is unrecognized. -/
def ReflectiveBlackboard.getSpace (bb : ReflectiveBlackboard α) (space : String) :
    Option (List (String × KnowledgeEntry α)) :=
  if space = "raw" then some bb.raw
  else if space = "processed" then some bb.processed
  else if space = "validated" then some bb.validated
  else if space = "consolidated" then some bb.consolidated
  else none

/-- `ReflectiveBlackboard.write` (lines 55-65): stores the entry and returns
`true` when `space in self.knowledge_spaces`, else returns `false` untouched. -/
def ReflectiveBlackboard.write (bb : ReflectiveBlackboard α)
    (agent_id space key : String) (value : α) (now : Nat) :
    Bool × ReflectiveBlackboard α :=
  let entry : KnowledgeEntry α := { value := value, agent := agent_id, timestamp := now }
  if space = "raw" then (true, { bb with raw := dictInsert bb.raw key entry })
  else if space = "processed" then (true, { bb with processed := dictInsert bb.processed key entry })
  else if space = "validated" then (true, { bb with validated := dictInsert bb.validated key entry })
  else if space = "consolidated" then (true, { bb with consolidated := dictInsert bb.consolidated key entry })
  else (false, bb)

/-- `ReflectiveBlackboard.merge_parallel_outputs` (lines 77-93): walks the fixed
priority list; `io_expert` (when present in `outputs`) becomes `primary`, the
two other listed experts are copied under their own ids; anything else in
`outputs` is never consulted. -/
def ReflectiveBlackboard.merge_parallel_outputs (outputs : List (String × α)) :
    List (String × α) :=
  let priority_order := ["io_expert", "system_expert", "communication_expert"]
  priority_order.foldl
    (fun merged agent_id =>
      match outputs.lookup agent_id with
      | none => merged
      | some v =>
        if agent_id = "io_expert" then merged ++ [("primary", v)]
        else merged ++ [(agent_id, v)])
    []

/-- The observable contents of the blackboard (its four spaces plus the
conflict registry) at one instant. -/
structure BlackboardData (α : Type) where
  raw : List (String × KnowledgeEntry α)
  processed : List (String × KnowledgeEntry α)
  validated : List (String × KnowledgeEntry α)
  consolidated : List (String × KnowledgeEntry α)
  conflicts : List String
deriving Repr, DecidableEq

/-- What the dict returned by `get_state_snapshot` holds.  The source (lines
95-100) returns `\x7b"knowledge_spaces": self.knowledge_spaces, "conflicts":
self.conflicts\x7d` — references to the live objects, with no copy of any kind —
so the snapshot is a pointer into the blackboard (`liveRefs`).  A deep-copying
implementation would instead return a detached `deepCopy`. -/
inductive SnapshotContents (α : Type) where
  | liveRefs : SnapshotContents α
  | deepCopy : BlackboardData α → SnapshotContents α
deriving DecidableEq

/-- `ReflectiveBlackboard.get_state_snapshot` (lines 95-100): returns the
aliasing dict, i.e. references to the live spaces and conflict registry. -/
def ReflectiveBlackboard.get_state_snapshot (_bb : ReflectiveBlackboard α) :
    SnapshotContents α :=
  .liveRefs

/-- The contents of the blackboard object itself at the current instant. -/
def ReflectiveBlackboard.liveData (bb : ReflectiveBlackboard α) : BlackboardData α :=
  { raw := bb.raw, processed := bb.processed, validated := bb.validated,
    consolidated := bb.consolidated, conflicts := bb.conflicts }

/-- Dereferencing a snapshot at a later instant: a `liveRefs` snapshot reads the
blackboard as it is *now* (the references alias the mutated dicts); a detached
copy reads its stored data. -/
def SnapshotContents.view (s : SnapshotContents α) (current : ReflectiveBlackboard α) :
    BlackboardData α :=
  match s with
  | .liveRefs => current.liveData
  | .deepCopy d => d

/- ### src/core/message_bus.py -/

/-- The `Message` dataclass. -/
structure Message (π : Type) where
  id : String
  sender : String
  message_type : String
  payload : π
  timestamp : Nat
  correlation_id : Option String
  vector_clock : Option VectorClock.Clock
deriving Repr, DecidableEq

/-- One entry of `self.circuit_breakers` on the bus: the plain dict
`\x7b"failures": n, "state": s\x7d` (the bus does not use the `CircuitBreaker`
class). -/
structure BusBreaker where
  failures : Nat
  state : String
deriving Repr, DecidableEq

/-- `EventDrivenMessageBus` state.  The subscriber registry holds opaque
callback identifiers (callbacks are functions; only registration order is
observable here), and the dispatch loop itself is asynchronous machinery no
claim touches. -/
structure EventDrivenMessageBus (π : Type) where
  subscribers : List (String × List Nat)
  message_queue : List (Message π)
  circuit_breakers : List (String × BusBreaker)
  message_history : List (Message π)
  running : Bool
deriving Repr, DecidableEq

/-- `EventDrivenMessageBus.__init__`. -/
def EventDrivenMessageBus.init : EventDrivenMessageBus π :=
  { subscribers := [], message_queue := [], circuit_breakers := [],
    message_history := [], running := false }

/-- `EventDrivenMessageBus._is_circuit_open` (lines 99-102):
`self.circuit_breakers.get(sender, ...)["state"] == "open"`. -/
def EventDrivenMessageBus.is_circuit_open (bus : EventDrivenMessageBus π)
    (sender : String) : Bool :=
  ((bus.circuit_breakers.lookup sender).getD { failures := 0, state := "closed" }).state
    == "open"

/-- `EventDrivenMessageBus.publish` (lines 47-69).  `uuid.uuid4()` is modelled
by the explicit `fresh_id`; `datetime.now()` by `now`.  The message is
constructed first; if the breaker for `sender` is open, `publish` raises
(result `none`) leaving the bus untouched; otherwise the message is enqueued
and its id returned.  Python `correlation_id or message_id` substitutes the
fresh id for a missing *or empty* correlation id (truthiness). -/
def EventDrivenMessageBus.publish (bus : EventDrivenMessageBus π)
    (sender message_type : String) (payload : π) (correlation_id : Option String)
    (fresh_id : String) (now : Nat) :
    Option String × EventDrivenMessageBus π :=
  let message_id := fresh_id
  let message : Message π :=
    { id := message_id, sender := sender, message_type := message_type,
      payload := payload, timestamp := now,
      correlation_id := some (match correlation_id with
        | some c => if c = "" then message_id else c
        | none => message_id),
      vector_clock := some [] }
  if bus.is_circuit_open sender then
    (none, bus)
  else
    (some message_id, { bus with message_queue := bus.message_queue ++ [message] })

/- ### src/validation/validation_pipeline.py (with src/resilience/fallback_handler.py) -/

/-- One CSP violation dict as consumed by `_refine_specifications`: the keys
`constraint`, `violation`, `max_allowed`, `min_required`, each possibly absent.
Bound values are modelled already stringified (the source applies `str(...)`
when clamping). -/
structure CSPViolation where
  constraint : Option String
  violation : Option String
  max_allowed : Option String
  min_required : Option String
deriving Repr, DecidableEq

/-- A specification dict, restricted to the two keys the core reads:
`constraint` (`spec.get("constraint")`, possibly absent) and `value`
(`spec["value"]`, always read unguarded). -/
structure Spec where
  constraint : Option String
  value : String
deriving Repr, DecidableEq

/-- The observable part of one phase result dict: `get("valid", False)`,
the `confidence` key (absent = `none`), `get("fallback", False)`, and
`get("violations", [])`.  All other keys (controllers, pricing, messages,
cache metadata) are never read by the pipeline logic under verification. -/
structure PhaseResult where
  valid : Bool
  confidence : Option Rat
  fallback : Bool
  violations : List CSPViolation
deriving Repr, DecidableEq

/-- `FallbackHandler.default_responses["technical_validator"]` projected to the
observable fields (`valid: False`, `confidence: 0.1`) plus the `fallback: True`
marker `get_fallback_response` stamps on.  `_customize_technical_fallback` only
rewrites the `controller` sub-dict and the cache only adds `cached`/`cache_time`
keys, so neither changes these fields. -/
def fallback_technical : PhaseResult :=
  { valid := false, confidence := some (1/10), fallback := true, violations := [] }

/-- `FallbackHandler.default_responses["commercial_validator"]` (`valid: True`,
`confidence: 0.5`) with the `fallback: True` marker; customization only touches
the `pricing` sub-dict. -/
def fallback_commercial : PhaseResult :=
  { valid := true, confidence := some (5/10), fallback := true, violations := [] }

/-- The inline CSP fallback built in `_validation_round` (lines 131-139):
`valid: True, confidence: 0.6, violations: [], fallback: True`. -/
def fallback_csp : PhaseResult :=
  { valid := true, confidence := some (6/10), fallback := true, violations := [] }

/-- A round result dict (`_validation_round`, lines 76-85). -/
structure RoundResult where
  round : Nat
  technical : Option PhaseResult
  commercial : Option PhaseResult
  csp : Option PhaseResult
  valid : Bool
  confidence : Rat
  fallback_used : Bool
deriving Repr, DecidableEq

/-- The behaviour of the three external validator calls, one outcome per round
number: `some r` when `process` returns a result projecting to `r`, `none` when
it raises.  The validators are external agents (LLM-backed, stateful); any
concrete validator induces such an outcome sequence along the deterministic
execution of one `validate` call, since each phase is invoked at most once per
round with inputs determined by the round number.  The specification list is
passed through so behaviours may depend on it, as `process` receives it. -/
structure PhaseBehaviors where
  technical : List Spec → Nat → Option PhaseResult
  commercial : List Spec → Nat → Option PhaseResult
  csp : List Spec → Nat → Option PhaseResult

/-- The three per-phase breakers created in `ValidationPipeline.__init__`
(`CircuitBreaker(name)` with the source defaults 5/60/3). -/
structure Breakers where
  technical : CircuitBreaker
  commercial : CircuitBreaker
  csp : CircuitBreaker
deriving Repr, DecidableEq

/-- `ValidationPipeline.__init__`: the breaker dict. -/
def Breakers.init (now : Nat) : Breakers :=
  { technical := CircuitBreaker.init "technical_validator" 5 60 3 now,
    commercial := CircuitBreaker.init "commercial_validator" 5 60 3 now,
    csp := CircuitBreaker.init "csp_validator" 5 60 3 now }

/-- `self.max_rounds = 3`. -/
def max_rounds : Nat := 3

/-- `self.consensus_threshold = 0.85`. -/
def consensus_threshold : Rat := 85/100

/-- Lines 149-156 of `_validation_round`: the round's `valid` flag, the `all`
of the three phase dicts' `get("valid", False)` (on the path where this runs
all three dicts are present). -/
def roundValid (tech comm csp : PhaseResult) : Bool :=
  tech.valid && comm.valid && csp.valid

/-- `ValidationPipeline._calculate_confidence` (lines 164-185): iterate
`technical: 0.4, commercial: 0.3, csp: 0.3` in dict order; a phase contributes
only when its slot holds a (truthy) result dict carrying a `confidence` key; a
`fallback`-flagged result has its confidence multiplied by 0.7 first; finally
`total_confidence / total_weight` (or 0.0 when no phase contributed). -/
def calculate_confidence (technical commercial csp : Option PhaseResult) : Rat :=
  let step := fun (acc : Rat × Rat) (p : Option PhaseResult × Rat) =>
    match p.1 with
    | some r =>
      match r.confidence with
      | some c =>
        let c := if r.fallback then c * (7/10) else c
        (acc.1 + c * p.2, acc.2 + p.2)
      | none => acc
    | none => acc
  let tw := [(technical, ((4:Rat)/10)), (commercial, (3:Rat)/10), (csp, (3:Rat)/10)].foldl step (0, 0)
  if 0 < tw.2 then tw.1 / tw.2 else 0

/-- `ValidationPipeline._validation_round` (lines 73-161).  Each phase call is
routed through its breaker; a raise (`none`) from `call` — rejection or
validator failure alike — substitutes the fallback response and marks
`fallback_used`.  After the technical phase, the round is returned early
(commercial/csp left `None`, `valid` False, `confidence` 0.0) when the
technical result is invalid and no fallback was used. -/
def validationRound (beh : PhaseBehaviors) (specs : List Spec) (roundNum : Nat)
    (bk : Breakers) (now : Nat) : RoundResult × Breakers :=
  let tcall := bk.technical.call now (beh.technical specs roundNum)
  let tpair : PhaseResult × Bool :=
    match tcall.2 with
    | some tr => (tr, false)
    | none => (fallback_technical, true)
  let tech_result := tpair.1
  let tech_fb := tpair.2
  if !tech_result.valid && !tech_fb then
    ({ round := roundNum, technical := some tech_result, commercial := none, csp := none,
       valid := false, confidence := 0, fallback_used := tech_fb },
     { technical := tcall.1, commercial := bk.commercial, csp := bk.csp })
  else
    let ccall := bk.commercial.call now (beh.commercial specs roundNum)
    let cpair : PhaseResult × Bool :=
      match ccall.2 with
      | some cr => (cr, tech_fb)
      | none => (fallback_commercial, true)
    let scall := bk.csp.call now (beh.csp specs roundNum)
    let spair : PhaseResult × Bool :=
      match scall.2 with
      | some sr => (sr, cpair.2)
      | none => (fallback_csp, true)
    ({ round := roundNum, technical := some tech_result, commercial := some cpair.1,
       csp := some spair.1,
       valid := roundValid tech_result cpair.1 spair.1,
       confidence := calculate_confidence (some tech_result) (some cpair.1) (some spair.1),
       fallback_used := spair.2 },
     { technical := tcall.1, commercial := ccall.1, csp := scall.1 })

/-- The clamp applied by `_refine_specifications` to one specification for one
violation: when `spec.get("constraint")` equals `violation.get("constraint", "")`,
`exceeds_maximum` rewrites `value` to `str(max_allowed)` (keeping the old value
when the bound is absent) and `below_minimum` symmetrically. -/
def clampSpec (spec : Spec) (viol : CSPViolation) : Spec :=
  if spec.constraint = some (viol.constraint.getD "") then
    if viol.violation = some "exceeds_maximum" then
      { spec with value := viol.max_allowed.getD spec.value }
    else if viol.violation = some "below_minimum" then
      { spec with value := viol.min_required.getD spec.value }
    else spec
  else spec

/-- `ValidationPipeline._refine_specifications` (lines 187-218), value level:
for each reported CSP violation, every matching specification is clamped (the
technical-violations loop at the end is a `pass`).  `refined` is
`specifications.copy()`, so the same dicts in the same order. -/
def refine_specifications (specs : List Spec) (rr : RoundResult) : List Spec :=
  match rr.csp with
  | none => specs
  | some csp_result =>
    csp_result.violations.foldl
      (fun refined viol => refined.map (fun sp => clampSpec sp viol))
      specs

/-- `_refine_specifications` at the Python object level, to observe aliasing:
the heap of specification dicts is `store`, the callers list holds references
(indices) into it.  `refined = specifications.copy()` duplicates the reference
list only; each clamp assigns into the shared dict (`spec["value"] = ...`),
i.e. updates the store.  Returns (the returned list, the store afterwards). -/
def refine_specifications_store (store : List Spec) (refs : List Nat)
    (violations : List CSPViolation) : List Nat × List Spec :=
  let refined := refs
  let store1 := violations.foldl
    (fun st viol =>
      refined.foldl
        (fun st i =>
          match st[i]? with
          | some sp => st.set i (clampSpec sp viol)
          | none => st)
        st)
    store
  (refined, store1)

/-- The `PipelineResult` dict built by `validate` (lines 36-72).
`circuit_breaker_status` holds `get_status()` of each breaker, a pure
projection of the breaker fields, so the breakers themselves are recorded. -/
structure PipelineResult where
  rounds : List RoundResult
  final_result : Option RoundResult
  consensus_achieved : Bool
  circuit_breaker_status : Breakers
  fallback_used : Bool
deriving Repr, DecidableEq

/-- The `for round_num in range(1, max_rounds + 1)` loop of `validate`:
run a round, append it, stop with consensus when its confidence reaches the
threshold, otherwise refine the specifications and continue.  Structural `fuel`
recursion: called with `fuel = maxR` and `roundNum = 1`, fuel exhaustion and
the `maxR < roundNum` guard coincide, reproducing the `range` bound. -/
def validateAux (beh : PhaseBehaviors) (now maxR : Nat) :
    Nat → Nat → List Spec → Breakers → List RoundResult × (Bool × Breakers)
  | 0, _, _, bk => ([], (false, bk))
  | fuel + 1, roundNum, specs, bk =>
    if maxR < roundNum then ([], (false, bk))
    else
      let p := validationRound beh specs roundNum bk now
      if consensus_threshold ≤ p.1.confidence then ([p.1], (true, p.2))
      else
        let q := validateAux beh now maxR fuel (roundNum + 1)
          (refine_specifications specs p.1) p.2
        (p.1 :: q.1, q.2)

/-- `ValidationPipeline.validate` (lines 36-72): up to `max_rounds` rounds,
`final_result = rounds[-1]`, breaker status snapshot, and
`fallback_used = any(round.fallback_used)`. -/
def validate (beh : PhaseBehaviors) (specifications : List Spec) (now : Nat)
    (bk : Breakers) : PipelineResult :=
  let r := validateAux beh now max_rounds max_rounds 1 specifications bk
  { rounds := r.1,
    final_result := r.1.getLast?,
    consensus_achieved := r.2.1,
    circuit_breaker_status := r.2.2,
    fallback_used := r.1.any (·.fallback_used) }

/-- A concrete validator behaviour for instantiations: every phase succeeds
with a valid result of confidence 0.9 and no violations. -/
def behAllOk : PhaseBehaviors :=
  { technical := fun _ _ => some { valid := true, confidence := some (9/10), fallback := false, violations := [] },
    commercial := fun _ _ => some { valid := true, confidence := some (9/10), fallback := false, violations := [] },
    csp := fun _ _ => some { valid := true, confidence := some (9/10), fallback := false, violations := [] } }

/- ## Theorems -/

/-- Calling through a breaker in `HALF_OPEN` executes the function and routes a
success through `_on_success`. -/
theorem CircuitBreaker.call_halfOpen_success (cb : CircuitBreaker) (t : Nat)
    (h : cb.state = .HALF_OPEN) :
    cb.call t (some ()) = (cb.on_success t, some ()) := by
  unfold CircuitBreaker.call
  rw [h]

/-- In `HALF_OPEN`, a success below the quota only bumps the success counter. -/
theorem CircuitBreaker.on_success_halfOpen_stay (cb : CircuitBreaker) (t : Nat)
    (h : cb.state = .HALF_OPEN)
    (hq : ¬ cb.half_open_requests ≤ cb.half_open_successes + 1) :
    cb.on_success t = { cb with half_open_successes := cb.half_open_successes + 1 } := by
  unfold CircuitBreaker.on_success
  rw [h]
  simp [hq]

/-- In `HALF_OPEN`, the quota-reaching success closes the breaker and zeroes
the failure count. -/
theorem CircuitBreaker.on_success_halfOpen_close (cb : CircuitBreaker) (t : Nat)
    (h : cb.state = .HALF_OPEN)
    (hq : cb.half_open_requests ≤ cb.half_open_successes + 1) :
    cb.on_success t =
      { cb with half_open_successes := cb.half_open_successes + 1,
                state := .CLOSED, failure_count := 0, last_state_change := t } := by
  unfold CircuitBreaker.on_success
  rw [h]
  simp [hq]

/-- From `HALF_OPEN` with the success counter at `s`, a run of successful calls
that brings the counter exactly to the quota ends `CLOSED` with
`failure_count = 0`. -/
theorem CircuitBreaker.successCalls_closes (times : List Nat) :
    ∀ cb : CircuitBreaker, cb.state = .HALF_OPEN →
      cb.half_open_successes + times.length = cb.half_open_requests →
      times ≠ [] →
      (cb.successCalls times).state = .CLOSED ∧
      (cb.successCalls times).failure_count = 0 := by
  induction times with
  | nil => intro cb _ _ hne; exact absurd rfl hne
  | cons t rest ih =>
    intro cb hst hsum _
    by_cases hr : rest = []
    · subst hr
      have hq : cb.half_open_requests ≤ cb.half_open_successes + 1 := by
        simp at hsum; omega
      simp [CircuitBreaker.successCalls, CircuitBreaker.call_halfOpen_success cb t hst,
            CircuitBreaker.on_success_halfOpen_close cb t hst hq]
    · have hlen : 1 ≤ rest.length := by
        cases rest with
        | nil => exact absurd rfl hr
        | cons a l => simp
      have hq : ¬ cb.half_open_requests ≤ cb.half_open_successes + 1 := by
        simp at hsum; omega
      have hstep : (cb.call t (some ())).1
          = { cb with half_open_successes := cb.half_open_successes + 1 } := by
        rw [CircuitBreaker.call_halfOpen_success cb t hst,
            CircuitBreaker.on_success_halfOpen_stay cb t hst hq]
      have : cb.successCalls (t :: rest)
          = CircuitBreaker.successCalls { cb with half_open_successes := cb.half_open_successes + 1 } rest := by
        simp [CircuitBreaker.successCalls, hstep]
      rw [this]
      refine ih _ (by simp [hst]) ?_ hr
      simp at hsum ⊢
      omega

/-- C1: a breaker constructed with `failure_threshold = 3` reaches `OPEN` after
three consecutive failed calls from its initial `CLOSED` state; from
`HALF_OPEN` with a fresh success counter, `half_open_requests` (≥ 1)
consecutive successful calls close it with `failure_count = 0`; and a single
failed call while `HALF_OPEN` reopens it immediately. -/
theorem circuit_breaker_threshold_transitions
    (agent_id : String) (rt q t0 t1 t2 t3 : Nat)
    (cb : CircuitBreaker) (hstate : cb.state = .HALF_OPEN)
    (hsucc : cb.half_open_successes = 0) (hquota : 1 ≤ cb.half_open_requests)
    (times : List Nat) (hlen : times.length = cb.half_open_requests) (tf : Nat) :
    ((((CircuitBreaker.init agent_id 3 rt q t0).call t1 (none : Option Unit)).1.call t2
        (none : Option Unit)).1.call t3 (none : Option Unit)).1.state = .OPEN
    ∧ (cb.successCalls times).state = .CLOSED
    ∧ (cb.successCalls times).failure_count = 0
    ∧ (cb.call tf (none : Option Unit)).1.state = .OPEN := by
  refine ⟨?_, ?_, ?_, ?_⟩
  · rfl
  · exact (CircuitBreaker.successCalls_closes times cb hstate (by omega)
      (by intro h; rw [h] at hlen; simp at hlen; omega)).1
  · exact (CircuitBreaker.successCalls_closes times cb hstate (by omega)
      (by intro h; rw [h] at hlen; simp at hlen; omega)).2
  · unfold CircuitBreaker.call
    rw [hstate]
    unfold CircuitBreaker.on_failure
    rw [hstate]

/-- Witness for C1 at a concrete breaker (`HALF_OPEN`, quota 3) and concrete
call instants. -/
theorem circuit_breaker_threshold_transitions_witness :
    ((((CircuitBreaker.init "tech" 3 60 3 0).call 1 (none : Option Unit)).1.call 2
        (none : Option Unit)).1.call 3 (none : Option Unit)).1.state = .OPEN
    ∧ (CircuitBreaker.successCalls
        { agent_id := "tech", state := .HALF_OPEN, failure_count := 2,
          failure_threshold := 3, recovery_timeout := 60, half_open_requests := 3,
          half_open_successes := 0, last_failure_time := some 0, last_state_change := 0 }
        [4, 5, 6]).state = .CLOSED
    ∧ (CircuitBreaker.successCalls
        { agent_id := "tech", state := .HALF_OPEN, failure_count := 2,
          failure_threshold := 3, recovery_timeout := 60, half_open_requests := 3,
          half_open_successes := 0, last_failure_time := some 0, last_state_change := 0 }
        [4, 5, 6]).failure_count = 0
    ∧ (CircuitBreaker.call
        { agent_id := "tech", state := .HALF_OPEN, failure_count := 2,
          failure_threshold := 3, recovery_timeout := 60, half_open_requests := 3,
          half_open_successes := 0, last_failure_time := some 0, last_state_change := 0 }
        7 (none : Option Unit)).1.state = .OPEN :=
  circuit_breaker_threshold_transitions "tech" 60 3 0 1 2 3
    { agent_id := "tech", state := .HALF_OPEN, failure_count := 2,
      failure_threshold := 3, recovery_timeout := 60, half_open_requests := 3,
      half_open_successes := 0, last_failure_time := some 0, last_state_change := 0 }
    rfl rfl (by decide) [4, 5, 6] rfl 7

/-- A successful lookup means the binding is in the list. -/
theorem lookup_mem : ∀ {l : List (String × Nat)} {k : String} {v : Nat},
    l.lookup k = some v → (k, v) ∈ l := by
  intro l
  induction l with
  | nil => intro k v h; simp at h
  | cons kv rest ih =>
    intro k v h
    obtain ⟨k', v'⟩ := kv
    rw [List.lookup_cons] at h
    by_cases hk : k = k'
    · subst hk
      simp at h
      simp [h]
    · have : (k == k') = false := beq_false_of_ne hk
      rw [this] at h
      simp at h
      exact List.mem_cons_of_mem _ (ih h)

/-- In a duplicate-key-free association list, membership determines lookup. -/
theorem mem_lookup : ∀ {l : List (String × Nat)} {k : String} {v : Nat},
    (l.map Prod.fst).Nodup → (k, v) ∈ l → l.lookup k = some v := by
  intro l
  induction l with
  | nil => intro k v _ h; simp at h
  | cons kv rest ih =>
    intro k v hn h
    obtain ⟨k', v'⟩ := kv
    simp only [List.map_cons, List.nodup_cons] at hn
    rcases List.mem_cons.mp h with heq | hmem
    · obtain ⟨rfl, rfl⟩ := Prod.mk.injEq .. ▸ heq
      simp [List.lookup_cons]
    · have hne : k ≠ k' := by
        rintro rfl
        exact hn.1 (List.mem_map.mpr ⟨(k, v), hmem, rfl⟩)
      rw [List.lookup_cons, beq_false_of_ne hne]
      exact ih hn.2 hmem

/-- The source's `less_or_equal` loop decides exactly the spec's componentwise
order (missing components read as 0), for duplicate-free clocks. -/
theorem all_le_iff (a b : VectorClock.Clock) (ha : (a.map Prod.fst).Nodup) :
    (a.all (fun kv => decide (kv.2 ≤ VectorClock.getD b kv.1)) = true)
      ↔ VectorClock.lePointwise a b := by
  constructor
  · intro h k
    cases hl : a.lookup k with
    | none => simp [VectorClock.getD, hl]
    | some v =>
      have hm := lookup_mem hl
      have := List.all_eq_true.mp h (k, v) hm
      simp only [decide_eq_true_eq] at this
      simpa [VectorClock.getD, hl] using this
  · intro h
    refine List.all_eq_true.mpr ?_
    rintro ⟨k, v⟩ hm
    have hl := mem_lookup ha hm
    have := h k
    rw [VectorClock.getD, hl] at this
    simpa using this

/-- The source's dict equality test decides exactly map identity, for
duplicate-free clocks. -/
theorem dictEq_iff (a b : VectorClock.Clock) (ha : (a.map Prod.fst).Nodup)
    (hb : (b.map Prod.fst).Nodup) :
    VectorClock.dictEq a b = true ↔ VectorClock.identicalMaps a b := by
  constructor
  · intro h k
    rw [VectorClock.dictEq, Bool.and_eq_true] at h
    obtain ⟨h1, h2⟩ := h
    cases hl : a.lookup k with
    | some v =>
      have := List.all_eq_true.mp h1 _ (lookup_mem hl)
      simp only [beq_iff_eq] at this
      rw [this]
    | none =>
      cases hl2 : b.lookup k with
      | none => rfl
      | some w =>
        have := List.all_eq_true.mp h2 _ (lookup_mem hl2)
        simp only [beq_iff_eq] at this
        rw [hl] at this
        exact absurd this.symm (by simp)
  · intro h
    rw [VectorClock.dictEq, Bool.and_eq_true]
    refine ⟨List.all_eq_true.mpr ?_, List.all_eq_true.mpr ?_⟩
    · rintro ⟨k, v⟩ hm
      simp only [beq_iff_eq]
      rw [← h k]
      exact mem_lookup ha hm
    · rintro ⟨k, v⟩ hm
      simp only [beq_iff_eq]
      rw [h k]
      exact mem_lookup hb hm

/-- Map identity forces the componentwise order both ways. -/
theorem identical_le (a b : VectorClock.Clock) (h : VectorClock.identicalMaps a b) :
    VectorClock.lePointwise a b := by
  intro k
  rw [VectorClock.getD, VectorClock.getD, h k]

/-- Map identity is symmetric. -/
theorem identical_symm (a b : VectorClock.Clock) (h : VectorClock.identicalMaps a b) :
    VectorClock.identicalMaps b a :=
  fun k => (h k).symm

/-- C3 (amended): for duplicate-free clock maps, `compare` returns `"equal"`
iff the maps are identical, `"before"` iff self is componentwise ≤ other but
not conversely, `"after"` symmetrically, and `"concurrent"` in all remaining
cases — i.e. also when each map is componentwise ≤ the other (possible with
explicit zero entries) without the maps being identical, not only under mutual
strict excess. -/
theorem vector_clock_compare_characterization (a b : VectorClock.Clock)
    (ha : (a.map Prod.fst).Nodup) (hb : (b.map Prod.fst).Nodup) :
    (VectorClock.compare a b = "equal" ↔ VectorClock.identicalMaps a b)
    ∧ (VectorClock.compare a b = "before"
        ↔ (VectorClock.lePointwise a b ∧ ¬ VectorClock.lePointwise b a))
    ∧ (VectorClock.compare a b = "after"
        ↔ (VectorClock.lePointwise b a ∧ ¬ VectorClock.lePointwise a b))
    ∧ (VectorClock.compare a b = "concurrent"
        ↔ (¬ VectorClock.identicalMaps a b
            ∧ (VectorClock.lePointwise a b ↔ VectorClock.lePointwise b a))) := by
  by_cases heq : VectorClock.dictEq a b = true
  · have hid : VectorClock.identicalMaps a b := (dictEq_iff a b ha hb).mp heq
    have hle : VectorClock.lePointwise a b := identical_le a b hid
    have hge : VectorClock.lePointwise b a := identical_le b a (identical_symm a b hid)
    have hc : VectorClock.compare a b = "equal" := by
      unfold VectorClock.compare
      rw [heq]
      simp
    refine ⟨⟨fun _ => hid, fun _ => hc⟩, ?_, ?_, ?_⟩
    · rw [hc]
      constructor
      · intro h; exact absurd h (by decide)
      · rintro ⟨-, h2⟩; exact absurd hge h2
    · rw [hc]
      constructor
      · intro h; exact absurd h (by decide)
      · rintro ⟨-, h2⟩; exact absurd hle h2
    · rw [hc]
      constructor
      · intro h; exact absurd h (by decide)
      · rintro ⟨h1, -⟩; exact absurd hid h1
  · have hid : ¬ VectorClock.identicalMaps a b := fun h =>
      heq ((dictEq_iff a b ha hb).mpr h)
    by_cases hle : (a.all (fun kv => decide (kv.2 ≤ VectorClock.getD b kv.1)) = true)
      <;> by_cases hge : (b.all (fun kv => decide (kv.2 ≤ VectorClock.getD a kv.1)) = true)
    · -- both ≤ : concurrent
      have hc : VectorClock.compare a b = "concurrent" := by
        unfold VectorClock.compare
        rw [Bool.eq_false_iff.mpr (fun h => heq h)] -- dictEq false
        simp [hle, hge]
      have hlep := (all_le_iff a b ha).mp hle
      have hgep := (all_le_iff b a hb).mp hge
      refine ⟨?_, ?_, ?_, ?_⟩
      · rw [hc]
        exact ⟨fun h => absurd h (by decide), fun h => absurd h hid⟩
      · rw [hc]
        exact ⟨fun h => absurd h (by decide), fun h => absurd hgep h.2⟩
      · rw [hc]
        exact ⟨fun h => absurd h (by decide), fun h => absurd hlep h.2⟩
      · rw [hc]
        exact ⟨fun _ => ⟨hid, by simp [hlep, hgep]⟩, fun _ => rfl⟩
    · -- a ≤ b only : before
      have hc : VectorClock.compare a b = "before" := by
        unfold VectorClock.compare
        rw [Bool.eq_false_iff.mpr (fun h => heq h)]
        simp [hle, hge]
      have hlep := (all_le_iff a b ha).mp hle
      have hgep : ¬ VectorClock.lePointwise b a := fun h =>
        hge ((all_le_iff b a hb).mpr h)
      refine ⟨?_, ?_, ?_, ?_⟩
      · rw [hc]
        exact ⟨fun h => absurd h (by decide), fun h => absurd h hid⟩
      · rw [hc]
        exact ⟨fun _ => ⟨hlep, hgep⟩, fun _ => rfl⟩
      · rw [hc]
        exact ⟨fun h => absurd h (by decide), fun h => absurd hlep h.2⟩
      · rw [hc]
        refine ⟨fun h => absurd h (by decide), fun h => absurd (h.2.mp hlep) hgep⟩
    · -- b ≤ a only : after
      have hc : VectorClock.compare a b = "after" := by
        unfold VectorClock.compare
        rw [Bool.eq_false_iff.mpr (fun h => heq h)]
        simp [hle, hge]
      have hgep := (all_le_iff b a hb).mp hge
      have hlep : ¬ VectorClock.lePointwise a b := fun h =>
        hle ((all_le_iff a b ha).mpr h)
      refine ⟨?_, ?_, ?_, ?_⟩
      · rw [hc]
        exact ⟨fun h => absurd h (by decide), fun h => absurd h hid⟩
      · rw [hc]
        exact ⟨fun h => absurd h (by decide), fun h => absurd hgep h.2⟩
      · rw [hc]
        exact ⟨fun _ => ⟨hgep, hlep⟩, fun _ => rfl⟩
      · rw [hc]
        refine ⟨fun h => absurd h (by decide), fun h => absurd (h.2.mpr hgep) hlep⟩
    · -- incomparable : concurrent
      have hc : VectorClock.compare a b = "concurrent" := by
        unfold VectorClock.compare
        rw [Bool.eq_false_iff.mpr (fun h => heq h)]
        simp [hle, hge]
      have hlep : ¬ VectorClock.lePointwise a b := fun h =>
        hle ((all_le_iff a b ha).mpr h)
      have hgep : ¬ VectorClock.lePointwise b a := fun h =>
        hge ((all_le_iff b a hb).mpr h)
      refine ⟨?_, ?_, ?_, ?_⟩
      · rw [hc]
        exact ⟨fun h => absurd h (by decide), fun h => absurd h hid⟩
      · rw [hc]
        exact ⟨fun h => absurd h (by decide), fun h => absurd h.1 hlep⟩
      · rw [hc]
        exact ⟨fun h => absurd h (by decide), fun h => absurd h.1 hgep⟩
      · rw [hc]
        exact ⟨fun _ => ⟨hid, by simp [hlep, hgep]⟩, fun _ => rfl⟩

/-- Counterexample to C3 as stated: on `A = \x7b\x7d` (a freshly constructed
clock) and `B = \x7b"a": 0\x7d`, `compare` answers `"concurrent"`, yet no
component of either map strictly exceeds the other's (every value reads 0), so
the claimed characterization of `"concurrent"` fails. -/
theorem vector_clock_compare_counterexample :
    VectorClock.compare [] [("a", 0)] = "concurrent"
    ∧ ¬ ((∃ k, VectorClock.getD [("a", 0)] k < VectorClock.getD [] k)
        ∧ (∃ k, VectorClock.getD [] k < VectorClock.getD [("a", 0)] k)) := by
  constructor
  · rfl
  · rintro ⟨⟨k, hk⟩, -⟩
    simp only [VectorClock.getD, List.lookup_nil, Option.getD_none] at hk
    omega

/-- Witness for C3 (amended) at a concrete pair of identical clocks. -/
theorem vector_clock_compare_characterization_witness :
    VectorClock.compare [("x", 1)] [("x", 1)] = "equal" :=
  ((vector_clock_compare_characterization [("x", 1)] [("x", 1)]
      (by decide) (by decide)).1).mpr (fun _ => rfl)

/-- Dict assignment followed by lookup of the same key yields the new value. -/
theorem lookup_dictInsert {β : Type} : ∀ (m : List (String × β)) (k : String) (v : β),
    (dictInsert m k v).lookup k = some v := by
  intro m k v
  unfold dictInsert
  by_cases hany : m.any (fun kv => kv.1 == k) = true
  · rw [if_pos hany]
    induction m with
    | nil => simp at hany
    | cons kv rest ih =>
      obtain ⟨k', v'⟩ := kv
      by_cases hk : k' = k
      · subst hk
        simp [List.lookup_cons]
      · have hbeq : (k' == k) = false := beq_false_of_ne hk
        have hrest : rest.any (fun kv => kv.1 == k) = true := by
          simp only [List.any_cons, hbeq, Bool.false_or] at hany
          exact hany
        have hstep := ih hrest
        simp only [List.map_cons]
        rw [if_neg (by simp [hbeq]), List.lookup_cons, beq_false_of_ne (Ne.symm hk)]
        exact hstep
  · rw [if_neg hany]
    induction m with
    | nil => simp [List.lookup_cons]
    | cons kv rest ih =>
      obtain ⟨k', v'⟩ := kv
      simp only [List.any_cons, Bool.or_eq_true, not_or] at hany
      have hk : (k == k') = false := by
        rcases Bool.eq_false_iff.mp (Bool.eq_false_iff.mpr hany.1) with _
        cases hbe : (k == k') with
        | false => rfl
        | true =>
          exact absurd (by rw [beq_iff_eq] at hbe; rw [hbe]; simp) hany.1
      rw [List.cons_append, List.lookup_cons, hk]
      exact ih (by simpa using hany.2)

/-- C6: `Blackboard.write` returns `false` and leaves every knowledge space
untouched when the space name is unrecognized, and returns `true` having
stored the entry (value, writer, timestamp) under the key when the space is
one of the four recognized names. -/
theorem blackboard_write_space_check {α : Type} (bb : ReflectiveBlackboard α)
    (agent_id key : String) (value : α) (now : Nat) (space : String) :
    (space ∉ recognizedSpaces →
      bb.write agent_id space key value now = (false, bb))
    ∧ (space ∈ recognizedSpaces →
      (bb.write agent_id space key value now).1 = true
      ∧ ∃ sp, ((bb.write agent_id space key value now).2.getSpace space) = some sp
          ∧ sp.lookup key = some { value := value, agent := agent_id, timestamp := now }) := by
  constructor
  · intro h
    simp only [recognizedSpaces, List.mem_cons, List.not_mem_nil, or_false, not_or] at h
    obtain ⟨h1, h2, h3, h4⟩ := h
    simp [ReflectiveBlackboard.write, h1, h2, h3, h4]
  · intro h
    simp only [recognizedSpaces, List.mem_cons, List.not_mem_nil, or_false] at h
    rcases h with rfl | rfl | rfl | rfl
      <;> exact ⟨rfl, _, rfl, lookup_dictInsert _ _ _⟩

/-- Witness for C6 at the unrecognized name `"bogus"` and the recognized name
`"raw"` on an initial blackboard. -/
theorem blackboard_write_space_check_witness :
    (ReflectiveBlackboard.init (α := Nat)).write "io_expert" "bogus" "k" 7 5
      = (false, ReflectiveBlackboard.init)
    ∧ ((ReflectiveBlackboard.init (α := Nat)).write "io_expert" "raw" "k" 7 5).1 = true :=
  ⟨(blackboard_write_space_check (ReflectiveBlackboard.init (α := Nat))
      "io_expert" "k" 7 5 "bogus").1 (by decide),
   ((blackboard_write_space_check (ReflectiveBlackboard.init (α := Nat))
      "io_expert" "k" 7 5 "raw").2 (by decide)).1⟩

/-- Counterexample to C9 as stated: the outputs entry `("other", 1)` is not
copied into the merge result at all — the source only ever copies the three
hard-coded participants, so the result is empty. -/
theorem merge_parallel_outputs_counterexample :
    ReflectiveBlackboard.merge_parallel_outputs [("other", (1 : Nat))] = [] := by
  rfl

/-- C9 (amended): `merge_parallel_outputs` is a pure function that maps
`"primary"` to `io_expert`'s output exactly when present, copies the
`system_expert` and `communication_expert` entries verbatim under their own
ids, and drops every entry under any other agent id. -/
theorem merge_parallel_outputs_characterization {α : Type} (outputs : List (String × α)) :
    (ReflectiveBlackboard.merge_parallel_outputs outputs).lookup "primary"
      = outputs.lookup "io_expert"
    ∧ (ReflectiveBlackboard.merge_parallel_outputs outputs).lookup "system_expert"
      = outputs.lookup "system_expert"
    ∧ (ReflectiveBlackboard.merge_parallel_outputs outputs).lookup "communication_expert"
      = outputs.lookup "communication_expert"
    ∧ ∀ k, k ≠ "primary" → k ≠ "system_expert" → k ≠ "communication_expert" →
        (ReflectiveBlackboard.merge_parallel_outputs outputs).lookup k = none := by
  rcases hio : outputs.lookup "io_expert" with _ | vio
    <;> rcases hsys : outputs.lookup "system_expert" with _ | vsys
    <;> rcases hcom : outputs.lookup "communication_expert" with _ | vcom
    <;> refine ⟨?_, ?_, ?_, ?_⟩
    <;> first
      | (intro k h1 h2 h3
         simp [ReflectiveBlackboard.merge_parallel_outputs, hio, hsys, hcom,
               List.lookup_cons, beq_false_of_ne h1, beq_false_of_ne h2,
               beq_false_of_ne h3])
      | (simp [ReflectiveBlackboard.merge_parallel_outputs, hio, hsys, hcom,
               List.lookup_cons])

/-- Witness for C9 (amended): a concrete outputs map with an unlisted agent id
whose entry is dropped. -/
theorem merge_parallel_outputs_characterization_witness :
    (ReflectiveBlackboard.merge_parallel_outputs
        [("io_expert", (1 : Nat)), ("extra", 2)]).lookup "extra" = none :=
  (merge_parallel_outputs_characterization [("io_expert", (1 : Nat)), ("extra", 2)]).2.2.2
    "extra" (by decide) (by decide) (by decide)

/-- Counterexample to C8 as stated: take the snapshot of a fresh blackboard,
then write; reading the previously returned snapshot now shows the written
entry — its contents did not stay unchanged, because `get_state_snapshot`
returns references to the live spaces, not a deep copy. -/
theorem snapshot_alias_counterexample :
    (ReflectiveBlackboard.get_state_snapshot (ReflectiveBlackboard.init (α := Nat))).view
        ((ReflectiveBlackboard.init (α := Nat)).write "io_expert" "raw" "k" 1 5).2
      ≠ (ReflectiveBlackboard.get_state_snapshot (ReflectiveBlackboard.init (α := Nat))).view
        (ReflectiveBlackboard.init (α := Nat)) := by
  decide

/-- C8 (amended): `get_state_snapshot` returns the dict holding references to
the live knowledge spaces and conflict registry (no copy of any kind), so a
write performed after taking the snapshot is visible through the previously
returned snapshot. -/
theorem snapshot_returns_live_references {α : Type} (bb : ReflectiveBlackboard α)
    (agent_id key : String) (value : α) (now : Nat) :
    bb.get_state_snapshot = SnapshotContents.liveRefs
    ∧ ((bb.get_state_snapshot).view (bb.write agent_id "raw" key value now).2).raw.lookup key
        = some { value := value, agent := agent_id, timestamp := now } := by
  refine ⟨rfl, ?_⟩
  simp only [ReflectiveBlackboard.get_state_snapshot, SnapshotContents.view,
    ReflectiveBlackboard.liveData, ReflectiveBlackboard.write]
  simp [lookup_dictInsert]

/-- C10: `_refine_specifications` returns the same dict references it was given
(`specifications.copy()` is shallow), and clamping for a reported CSP violation
rewrites the matching specification object in the shared store — here the
caller's dict goes from `value = "32"` to `value = "16"`. -/
theorem refine_specifications_mutates_in_place :
    (∀ (store : List Spec) (refs : List Nat) (violations : List CSPViolation),
        (refine_specifications_store store refs violations).1 = refs)
    ∧ (refine_specifications_store
          [{ constraint := some "analog_input", value := "32" }] [0]
          [{ constraint := some "analog_input", violation := some "exceeds_maximum",
             max_allowed := some "16", min_required := none }]).2
        = [{ constraint := some "analog_input", value := "16" }]
    ∧ (refine_specifications_store
          [{ constraint := some "analog_input", value := "32" }] [0]
          [{ constraint := some "analog_input", violation := some "exceeds_maximum",
             max_allowed := some "16", min_required := none }]).2
        ≠ [{ constraint := some "analog_input", value := "32" }] := by
  exact ⟨fun _ _ _ => rfl, by decide, by decide⟩

/-- C7: `publish` raises (no enqueue, bus untouched) exactly when the sender's
bus breaker state is `"open"`; otherwise it appends a single message — with the
fresh id, the call instant as timestamp, and a correlation id defaulting to the
message's own id when none is supplied — to the queue (history, breakers and
subscribers unchanged) and returns the id. -/
theorem message_bus_publish_spec {π : Type} (bus : EventDrivenMessageBus π)
    (sender message_type : String) (payload : π) (correlation_id : Option String)
    (fresh_id : String) (now : Nat) :
    (bus.is_circuit_open sender = true →
      bus.publish sender message_type payload correlation_id fresh_id now = (none, bus))
    ∧ (bus.is_circuit_open sender = false →
      ∃ m : Message π,
        bus.publish sender message_type payload correlation_id fresh_id now
          = (some fresh_id, { bus with message_queue := bus.message_queue ++ [m] })
        ∧ m.id = fresh_id ∧ m.sender = sender ∧ m.message_type = message_type
        ∧ m.payload = payload ∧ m.timestamp = now
        ∧ (correlation_id = none → m.correlation_id = some fresh_id)) := by
  constructor
  · intro h
    simp [EventDrivenMessageBus.publish, h]
  · intro h
    refine ⟨{ id := fresh_id, sender := sender, message_type := message_type,
              payload := payload, timestamp := now,
              correlation_id := some (match correlation_id with
                | some c => if c = "" then fresh_id else c
                | none => fresh_id),
              vector_clock := some [] }, ?_, rfl, rfl, rfl, rfl, rfl, ?_⟩
    · simp [EventDrivenMessageBus.publish, h]
    · rintro rfl
      rfl

/-- Witness for C7: a bus whose breaker for `"s"` is open rejects without side
effect, and a fresh bus enqueues and returns the fresh id. -/
theorem message_bus_publish_spec_witness :
    ({ subscribers := [], message_queue := [],
       circuit_breakers := [("s", { failures := 5, state := "open" })],
       message_history := [], running := false } : EventDrivenMessageBus Nat).publish
        "s" "evt" 7 none "id1" 3
      = (none,
         { subscribers := [], message_queue := [],
           circuit_breakers := [("s", { failures := 5, state := "open" })],
           message_history := [], running := false })
    ∧ ((EventDrivenMessageBus.init (π := Nat)).publish "s" "evt" 7 none "id1" 3).1
        = some "id1" := by
  constructor
  · exact (message_bus_publish_spec _ "s" "evt" 7 none "id1" 3).1 (by decide)
  · obtain ⟨m, hm, -⟩ :=
      (message_bus_publish_spec (EventDrivenMessageBus.init (π := Nat))
        "s" "evt" 7 none "id1" 3).2 (by decide)
    rw [hm]

/-- Every round result is either the early-return shape (no csp result,
confidence 0.0) or the full shape, whose `confidence` and `valid` fields are
computed by `_calculate_confidence` and the `all(...)` of the three phases. -/
theorem validationRound_shape (beh : PhaseBehaviors) (specs : List Spec) (n : Nat)
    (bk : Breakers) (now : Nat) :
    ((validationRound beh specs n bk now).1.csp = none
      ∧ (validationRound beh specs n bk now).1.confidence = 0)
    ∨ (∃ t c s, (validationRound beh specs n bk now).1.technical = some t
        ∧ (validationRound beh specs n bk now).1.commercial = some c
        ∧ (validationRound beh specs n bk now).1.csp = some s
        ∧ (validationRound beh specs n bk now).1.confidence
            = calculate_confidence (some t) (some c) (some s)
        ∧ (validationRound beh specs n bk now).1.valid = roundValid t c s) := by
  simp only [validationRound]
  cases htc : (bk.technical.call now (beh.technical specs n)).2 with
  | none =>
    simp only [fallback_technical, Bool.not_true, Bool.and_false, Bool.false_eq_true,
      if_false, reduceIte]
    cases hcc : (bk.commercial.call now (beh.commercial specs n)).2
      <;> cases hsc : (bk.csp.call now (beh.csp specs n)).2
      <;> exact Or.inr ⟨_, _, _, rfl, rfl, rfl, rfl, rfl⟩
  | some tr =>
    cases htrv : tr.valid with
    | false =>
      simp only [htrv, Bool.not_false, Bool.and_true]
      exact Or.inl ⟨rfl, rfl⟩
    | true =>
      simp only [htrv, Bool.not_true, Bool.false_and, Bool.false_eq_true, reduceIte]
      cases hcc : (bk.commercial.call now (beh.commercial specs n)).2
        <;> cases hsc : (bk.csp.call now (beh.csp specs n)).2
        <;> exact Or.inr ⟨_, _, _, rfl, rfl, rfl, rfl, rfl⟩

/-- When all three phases carry a confidence, `_calculate_confidence` is the
0.4/0.3/0.3-weighted sum (total weight 1) of the phase confidences, each
discounted by 0.7 when its result is fallback-flagged. -/
theorem calculate_confidence_all (tr cr sr : PhaseResult) (ct cc cs : Rat)
    (hct : tr.confidence = some ct) (hcc : cr.confidence = some cc)
    (hcs : sr.confidence = some cs) :
    calculate_confidence (some tr) (some cr) (some sr)
      = (if tr.fallback then ct * (7/10) else ct) * (4/10)
        + (if cr.fallback then cc * (7/10) else cc) * (3/10)
        + (if sr.fallback then cs * (7/10) else cs) * (3/10) := by
  simp only [calculate_confidence, List.foldl, hct, hcc, hcs]
  norm_num

/-- A phase with no result is excluded from both the numerator and the weight
sum: with the technical slot empty the total weight is 0.6. -/
theorem calculate_confidence_no_technical (cr sr : PhaseResult) (cc cs : Rat)
    (hcc : cr.confidence = some cc) (hcs : sr.confidence = some cs) :
    calculate_confidence none (some cr) (some sr)
      = ((if cr.fallback then cc * (7/10) else cc) * (3/10)
          + (if sr.fallback then cs * (7/10) else cs) * (3/10)) / (6/10) := by
  simp only [calculate_confidence, List.foldl, hcc, hcs]
  norm_num

/-- C5: for a round in which all three phases produced a result (each carrying
a confidence), the round's confidence is the 0.4/0.3/0.3-weighted average of
the phase confidences with fallback-flagged phases discounted by 0.7 (total
weight 1), phases with no result are excluded from numerator and weight sum
alike (shown for an absent technical phase: weight 0.6), and the round's
`valid` flag is the conjunction of the three phases' valid flags. -/
theorem validation_round_confidence (beh : PhaseBehaviors) (specs : List Spec)
    (n : Nat) (bk : Breakers) (now : Nat) (tr cr sr : PhaseResult) (ct cc cs : Rat)
    (ht : (validationRound beh specs n bk now).1.technical = some tr)
    (hc : (validationRound beh specs n bk now).1.commercial = some cr)
    (hs : (validationRound beh specs n bk now).1.csp = some sr)
    (hct : tr.confidence = some ct) (hcc : cr.confidence = some cc)
    (hcs : sr.confidence = some cs) :
    (validationRound beh specs n bk now).1.confidence
      = (if tr.fallback then ct * (7/10) else ct) * (4/10)
        + (if cr.fallback then cc * (7/10) else cc) * (3/10)
        + (if sr.fallback then cs * (7/10) else cs) * (3/10)
    ∧ (validationRound beh specs n bk now).1.valid = (tr.valid && cr.valid && sr.valid)
    ∧ calculate_confidence none (some cr) (some sr)
      = ((if cr.fallback then cc * (7/10) else cc) * (3/10)
          + (if sr.fallback then cs * (7/10) else cs) * (3/10)) / (6/10) := by
  rcases validationRound_shape beh specs n bk now with ⟨hnone, -⟩ | ⟨t, c, s, h1, h2, h3, h4, h5⟩
  · rw [hs] at hnone
    exact absurd hnone (by simp)
  · have het : t = tr := by rw [h1] at ht; exact Option.some.inj ht
    have hec : c = cr := by rw [h2] at hc; exact Option.some.inj hc
    have hes : s = sr := by rw [h3] at hs; exact Option.some.inj hs
    subst het hec hes
    refine ⟨?_, ?_, calculate_confidence_no_technical _ _ cc cs hcc hcs⟩
    · rw [h4]
      exact calculate_confidence_all _ _ _ ct cc cs hct hcc hcs
    · rw [h5]
      rfl

/-- Witness for C5: concrete always-valid validators with confidence 0.9 and no
fallbacks give round confidence 0.9 by the weighted formula. -/
theorem validation_round_confidence_witness :
    (validationRound behAllOk [] 1 (Breakers.init 0) 0).1.confidence
      = (if (false : Bool) then (9/10 : Rat) * (7/10) else (9/10 : Rat)) * (4/10)
        + (if (false : Bool) then (9/10 : Rat) * (7/10) else (9/10 : Rat)) * (3/10)
        + (if (false : Bool) then (9/10 : Rat) * (7/10) else (9/10 : Rat)) * (3/10) :=
  (validation_round_confidence behAllOk [] 1 (Breakers.init 0) 0
    ⟨true, some (9/10), false, []⟩ ⟨true, some (9/10), false, []⟩
    ⟨true, some (9/10), false, []⟩ (9/10) (9/10) (9/10)
    rfl rfl rfl rfl rfl rfl).1

/-- The round loop runs at most `fuel` rounds. -/
theorem validateAux_length_le (beh : PhaseBehaviors) (now maxR : Nat) :
    ∀ (fuel n : Nat) (specs : List Spec) (bk : Breakers),
      (validateAux beh now maxR fuel n specs bk).1.length ≤ fuel := by
  intro fuel
  induction fuel with
  | zero => intro n specs bk; simp [validateAux]
  | succ f ih =>
    intro n specs bk
    simp only [validateAux]
    split
    · simp
    · split
      · simp
      · simpa using Nat.succ_le_succ (ih (n + 1) _ _)

/-- Every round before the last one scored below the consensus threshold. -/
theorem validateAux_early_below (beh : PhaseBehaviors) (now maxR : Nat) :
    ∀ (fuel n : Nat) (specs : List Spec) (bk : Breakers) (i : Nat) (r : RoundResult),
      i + 1 < (validateAux beh now maxR fuel n specs bk).1.length →
      (validateAux beh now maxR fuel n specs bk).1[i]? = some r →
      r.confidence < consensus_threshold := by
  intro fuel
  induction fuel with
  | zero => intro n specs bk i r h _; simp [validateAux] at h
  | succ f ih =>
    intro n specs bk i r h hget
    simp only [validateAux] at h hget
    by_cases hmn : maxR < n
    · rw [if_pos hmn] at h
      simp at h
    · rw [if_neg hmn] at h hget
      by_cases hc :
        consensus_threshold ≤ (validationRound beh specs n bk now).1.confidence
      · rw [if_pos hc] at h
        simp at h
      · rw [if_neg hc] at h hget
        cases i with
        | zero =>
          simp only [List.getElem?_cons_zero] at hget
          rw [← Option.some.inj hget]
          exact lt_of_not_le hc
        | succ j =>
          simp only [List.getElem?_cons_succ] at hget
          simp only [List.length_cons] at h
          exact ih (n + 1) _ _ j r (by omega) hget

/-- The consensus flag is set exactly when the last executed round reached the
threshold. -/
theorem validateAux_consensus_iff (beh : PhaseBehaviors) (now maxR : Nat) :
    ∀ (fuel n : Nat) (specs : List Spec) (bk : Breakers),
      ((validateAux beh now maxR fuel n specs bk).2.1 = true
        ↔ ∃ r, (validateAux beh now maxR fuel n specs bk).1.getLast? = some r
            ∧ consensus_threshold ≤ r.confidence) := by
  intro fuel
  induction fuel with
  | zero => intro n specs bk; simp [validateAux]
  | succ f ih =>
    intro n specs bk
    simp only [validateAux]
    by_cases hmn : maxR < n
    · rw [if_pos hmn]
      simp
    · rw [if_neg hmn]
      by_cases hc :
        consensus_threshold ≤ (validationRound beh specs n bk now).1.confidence
      · rw [if_pos hc]
        simp [hc]
      · rw [if_neg hc]
        have ihh := ih (n + 1) (refine_specifications specs
          (validationRound beh specs n bk now).1)
          (validationRound beh specs n bk now).2
        dsimp only
        cases hq : (validateAux beh now maxR f (n + 1)
            (refine_specifications specs (validationRound beh specs n bk now).1)
            (validationRound beh specs n bk now).2).1 with
        | nil =>
          rw [hq] at ihh
          simp only [List.getLast?_singleton]
          simp only [List.getLast?_nil] at ihh
          constructor
          · intro hflag
            exact absurd (ihh.mp hflag) (by simp)
          · rintro ⟨r, hr, hge⟩
            rw [← Option.some.inj hr] at hge
            exact absurd hge hc
        | cons r' rest =>
          rw [List.getLast?_cons_cons, ← hq]
          exact ihh

/-- With fuel left and the round counter within range, at least one round runs. -/
theorem validateAux_nonempty (beh : PhaseBehaviors) (now maxR : Nat)
    (fuel n : Nat) (specs : List Spec) (bk : Breakers)
    (hf : 1 ≤ fuel) (hn : n ≤ maxR) :
    1 ≤ (validateAux beh now maxR fuel n specs bk).1.length := by
  cases fuel with
  | zero => omega
  | succ f =>
    simp only [validateAux]
    rw [if_neg (by omega)]
    split <;> simp

/-- C4: for every behaviour, specification list (with its context folded into
the behaviours) and starting state, `validate` runs between 1 and `max_rounds`
rounds, every round except the last scores below `consensus_threshold`,
`consensus_achieved` holds exactly when the last round reached the threshold
(so a round-1 confidence ≥ 0.85 yields exactly one round), and `final_result`
is always the last executed round. -/
theorem validate_round_control (beh : PhaseBehaviors) (specs : List Spec)
    (now : Nat) (bk : Breakers) :
    (validate beh specs now bk).rounds.length ≤ max_rounds
    ∧ 1 ≤ (validate beh specs now bk).rounds.length
    ∧ (∀ i r, i + 1 < (validate beh specs now bk).rounds.length →
        (validate beh specs now bk).rounds[i]? = some r →
        r.confidence < consensus_threshold)
    ∧ ((validate beh specs now bk).consensus_achieved = true ↔
        ∃ r, (validate beh specs now bk).rounds.getLast? = some r
          ∧ consensus_threshold ≤ r.confidence)
    ∧ (validate beh specs now bk).final_result = (validate beh specs now bk).rounds.getLast?
    ∧ (∀ r, (validate beh specs now bk).rounds.head? = some r →
        consensus_threshold ≤ r.confidence →
        (validate beh specs now bk).rounds.length = 1) := by
  simp only [validate]
  refine ⟨validateAux_length_le beh now max_rounds max_rounds 1 specs bk,
          validateAux_nonempty beh now max_rounds max_rounds 1 specs bk
            (by decide) (by decide),
          fun i r h hg => validateAux_early_below beh now max_rounds max_rounds 1
            specs bk i r h hg,
          validateAux_consensus_iff beh now max_rounds max_rounds 1 specs bk,
          by trivial,
          ?_⟩
  intro r hhead hge
  by_contra hlen
  have h1 : 1 ≤ (validateAux beh now max_rounds max_rounds 1 specs bk).1.length :=
    validateAux_nonempty beh now max_rounds max_rounds 1 specs bk (by decide) (by decide)
  have hg0 : (validateAux beh now max_rounds max_rounds 1 specs bk).1[0]? = some r := by
    cases hl : (validateAux beh now max_rounds max_rounds 1 specs bk).1 with
    | nil => rw [hl] at hhead; simp at hhead
    | cons a t =>
      rw [hl] at hhead
      simp only [List.head?_cons] at hhead
      simp [Option.some.inj hhead]
  have hlt := validateAux_early_below beh now max_rounds max_rounds 1 specs bk 0 r
    (by omega) hg0
  exact absurd hge (not_le_of_lt hlt)

/-- Witness for C4: with always-valid 0.9-confidence validators the first round
reaches the threshold, so exactly one round runs. -/
theorem validate_round_control_witness :
    (validate behAllOk [] 0 (Breakers.init 0)).rounds.length = 1
    ∧ (validate behAllOk [] 0 (Breakers.init 0)).final_result
        = (validate behAllOk [] 0 (Breakers.init 0)).rounds.getLast? :=
  ⟨(validate_round_control behAllOk [] 0 (Breakers.init 0)).2.2.2.2.2
      { round := 1,
        technical := some { valid := true, confidence := some (9/10),
                            fallback := false, violations := [] },
        commercial := some { valid := true, confidence := some (9/10),
                             fallback := false, violations := [] },
        csp := some { valid := true, confidence := some (9/10),
                      fallback := false, violations := [] },
        valid := true, confidence := 9/10, fallback_used := false }
      (by with_unfolding_all decide) (by with_unfolding_all decide),
   (validate_round_control behAllOk [] 0 (Breakers.init 0)).2.2.2.2.1⟩

/-- An OPEN breaker whose reset window has not opened rejects the call without
executing it and without changing any of its own state. -/
theorem CircuitBreaker.call_rejected {α : Type} (cb : CircuitBreaker) (now : Nat)
    (o : Option α) (hOpen : cb.state = .OPEN)
    (hNoReset : cb.should_attempt_reset now = false) :
    cb.call now o = (cb, none) := by
  unfold CircuitBreaker.call
  rw [hOpen, hNoReset]
  simp

/-- A round whose technical breaker rejects uses the technical fallback, hence
carries `fallback_used = true` whatever the other phases do, and leaves the
technical breaker untouched. -/
theorem validationRound_rejected_technical (beh : PhaseBehaviors) (specs : List Spec)
    (n : Nat) (bk : Breakers) (now : Nat)
    (hOpen : bk.technical.state = .OPEN)
    (hNoReset : bk.technical.should_attempt_reset now = false) :
    (validationRound beh specs n bk now).1.fallback_used = true
    ∧ (validationRound beh specs n bk now).2.technical = bk.technical := by
  have hrej : bk.technical.call now (beh.technical specs n) = (bk.technical, none) :=
    CircuitBreaker.call_rejected _ _ _ hOpen hNoReset
  rcases hcc : (bk.commercial.call now (beh.commercial specs n)).2 with _ | cr
    <;> rcases hsc : (bk.csp.call now (beh.csp specs n)).2 with _ | sr
    <;> simp [validationRound, hrej, hcc, hsc, fallback_technical]

/-- Along the whole loop, a rejecting technical breaker stays untouched and
marks every produced round as fallback-sourced. -/
theorem validateAux_rejected_technical (beh : PhaseBehaviors) (now maxR : Nat) :
    ∀ (fuel n : Nat) (specs : List Spec) (bk : Breakers),
      bk.technical.state = .OPEN →
      bk.technical.should_attempt_reset now = false →
      ∀ r ∈ (validateAux beh now maxR fuel n specs bk).1, r.fallback_used = true := by
  intro fuel
  induction fuel with
  | zero => intro n specs bk _ _ r hr; simp [validateAux] at hr
  | succ f ih =>
    intro n specs bk hOpen hNoReset r hr
    simp only [validateAux] at hr
    by_cases hmn : maxR < n
    · rw [if_pos hmn] at hr
      simp at hr
    · rw [if_neg hmn] at hr
      have hround := validationRound_rejected_technical beh specs n bk now hOpen hNoReset
      by_cases hc :
        consensus_threshold ≤ (validationRound beh specs n bk now).1.confidence
      · rw [if_pos hc] at hr
        simp only [List.mem_singleton] at hr
        rw [hr]
        exact hround.1
      · rw [if_neg hc] at hr
        rcases List.mem_cons.mp hr with rfl | htail
        · exact hround.1
        · exact ih (n + 1) _ _ (by rw [hround.2]; exact hOpen)
            (by rw [hround.2]; exact hNoReset) r htail

/-- Counterexample to C2 as stated: `force_open` does not record a failure
time, so `_should_attempt_reset` answers true at the very next call, the
breaker slips to HALF_OPEN and executes the validator; with validators that
succeed, the single consensus round has `fallback_used = false`. -/
theorem force_open_fallback_counterexample :
    (validate behAllOk [] 0
        { Breakers.init 0 with
          technical := (Breakers.init 0).technical.force_open 0 }).rounds.map
        (fun r => r.fallback_used) = [false]
    ∧ (validate behAllOk [] 0
        { Breakers.init 0 with
          technical := (Breakers.init 0).technical.force_open 0
            }).circuit_breaker_status.technical.state = .HALF_OPEN := by
  with_unfolding_all decide

/-- C2 (amended): when the technical breaker is OPEN and a failure was recorded
recently enough that the reset window has not opened (note `force_open` alone
records no failure time, in which case the next call proceeds via HALF_OPEN),
every technical call of every round is rejected, so every round of the result
has `fallback_used = true`, the pipeline still returns a `final_result` without
raising, and the top-level `fallback_used` flag is set. -/
theorem validate_forced_open_fallback (beh : PhaseBehaviors) (specs : List Spec)
    (now : Nat) (bk : Breakers)
    (hOpen : bk.technical.state = .OPEN)
    (hNoReset : bk.technical.should_attempt_reset now = false) :
    (∀ r ∈ (validate beh specs now bk).rounds, r.fallback_used = true)
    ∧ (validate beh specs now bk).final_result.isSome = true
    ∧ (validate beh specs now bk).fallback_used = true := by
  have hall : ∀ r ∈ (validate beh specs now bk).rounds, r.fallback_used = true :=
    validateAux_rejected_technical beh now max_rounds max_rounds 1 specs bk
      hOpen hNoReset
  have hlen : 1 ≤ (validate beh specs now bk).rounds.length :=
    validateAux_nonempty beh now max_rounds max_rounds 1 specs bk
      (by decide) (by decide)
  refine ⟨hall, ?_, ?_⟩
  · show (validate beh specs now bk).rounds.getLast?.isSome = true
    cases hl : (validate beh specs now bk).rounds with
    | nil => rw [hl] at hlen; simp at hlen
    | cons a t => simp [List.getLast?_isSome]
  · show (validate beh specs now bk).rounds.any (fun r => r.fallback_used) = true
    cases hl : (validate beh specs now bk).rounds with
    | nil => rw [hl] at hlen; simp at hlen
    | cons a t =>
      refine List.any_eq_true.mpr ⟨a, by simp, ?_⟩
      have := hall a (by rw [hl]; exact List.mem_cons_self a t)
      simpa using this

/-- Witness for C2 (amended) at a concrete pipeline whose technical breaker is
OPEN with a failure recorded 10 seconds ago (timeout 60). -/
theorem validate_forced_open_fallback_witness :
    (validate behAllOk [] 10
        { Breakers.init 0 with
          technical := { (Breakers.init 0).technical with
                         state := .OPEN, last_failure_time := some 0 } }).final_result.isSome
      = true
    ∧ (validate behAllOk [] 10
        { Breakers.init 0 with
          technical := { (Breakers.init 0).technical with
                         state := .OPEN, last_failure_time := some 0 } }).fallback_used
      = true :=
  ⟨(validate_forced_open_fallback behAllOk [] 10
      { Breakers.init 0 with
        technical := { (Breakers.init 0).technical with
                       state := .OPEN, last_failure_time := some 0 } }
      rfl (by decide)).2.1,
   (validate_forced_open_fallback behAllOk [] 10
      { Breakers.init 0 with
        technical := { (Breakers.init 0).technical with
                       state := .OPEN, last_failure_time := some 0 } }
      rfl (by decide)).2.2⟩

end Reqmas
